import Mathlib

/-! Verification of the GCPU_grape scenario orchestration and resilient
query-resolution engine (`apps/backend/core/agent_executor.py`), shallowly
embedded in Lean 4.  Python strings are modelled as `String`, with helper
functions over `String.data` (`List Char`) mirroring the exact Python
semantics (truthiness, `or`-chains, `strip`, `upper`, `replace`,
`startswith`, `in`).  Dictionaries holding SPARQL result rows are modelled
as association lists; mutable node/link accumulators are modelled by
explicit state passing that reproduces the aliasing behaviour of the
Python dictionaries (an update through the node index mutates the last
list entry carrying that id, which is exactly the entry the Python dict
comprehension retains). -/

namespace Grape

/-- Python whitespace test used by `str.strip()` / `str.lstrip()`. -/
def isPySpace (c : Char) : Bool := c.isWhitespace

/-- Characters of a string with leading/trailing whitespace removed. -/
def trimChars (s : List Char) : List Char :=
  ((s.dropWhile isPySpace).reverse.dropWhile isPySpace).reverse

/-- Python `s.strip()`. -/
def pyStrip (s : String) : String := String.mk (trimChars s.data)

/-- Python `s.lstrip()`. -/
def pyLStrip (s : String) : String := String.mk (s.data.dropWhile isPySpace)

/-- Python `s.upper()` (ASCII, which is all the engine ever compares). -/
def pyUpper (s : String) : String := String.mk (s.data.map Char.toUpper)

/-- Does `needle` occur as a contiguous sublist of the second argument? -/
def subListOccurs (needle : List Char) : List Char → Bool
  | [] => needle.isPrefixOf []
  | c :: rest => needle.isPrefixOf (c :: rest) || subListOccurs needle rest

/-- Python `sub in s` on strings. -/
def pyContains (s sub : String) : Bool := subListOccurs sub.data s.data

/-- Python `s.startswith(p)`. -/
def pyStartsWith (s p : String) : Bool := p.data.isPrefixOf s.data

/-- Python `c in s` for a single character. -/
def pyContainsChar (s : String) (c : Char) : Bool := s.data.contains c

/-- One step of Python `str.replace` (left-to-right, non-overlapping); the
fuel argument is instantiated with the source length, which bounds the
number of steps.  The engine only ever replaces non-empty markers. -/
def replaceFuel (pat rep : List Char) : Nat → List Char → List Char
  | _, [] => []
  | 0, s => s
  | fuel + 1, c :: rest =>
    if pat.isPrefixOf (c :: rest) then
      rep ++ replaceFuel pat rep fuel (List.drop pat.length (c :: rest))
    else
      c :: replaceFuel pat rep fuel rest

/-- Python `s.replace(pat, rep)`. -/
def pyReplace (s pat rep : String) : String :=
  String.mk (replaceFuel pat.data rep.data s.data.length s.data)

/-- Python truthiness of an optional string (`None` and `""` are falsy). -/
def pyTruthy : Option String → Bool
  | none => false
  | some s => s != ""

/-- Python `a or b` where both operands are optional strings. -/
def pyOr (a b : Option String) : Option String := if pyTruthy a then a else b

/-- Python `s.split(sep, 1)` restricted to a one-character separator:
`none` when the separator does not occur, otherwise the parts before and
after its first occurrence. -/
def splitFirstAt (sep : Char) : List Char → Option (List Char × List Char)
  | [] => none
  | c :: rest =>
    if c = sep then some ([], rest)
    else (splitFirstAt sep rest).map (fun pr => (c :: pr.1, pr.2))

/-- Python `s.rsplit(sep, 1)[-1]`: the segment after the last occurrence of
`sep`, or the whole list when `sep` does not occur. -/
def afterLastSep (sep : Char) (s : List Char) : List Char :=
  match splitFirstAt sep s.reverse with
  | some pr => pr.1.reverse
  | none => s

/-! Embedding of `AgentExecutor` (`apps/backend/core/agent_executor.py`).
Only the pure orchestration logic named by the claims is embedded; the
text-completion oracle, the HTTP transport and the logger are modelled as
parameters (an `Option String` oracle answer, with `none` for an
exception; a list of HTTP attempt outcomes for the resilience loop). -/

/-- `AgentExecutor.prefix_map`: the static prefix table (constructor,
lines 69-74). -/
def prefixTable : List (String × String) :=
  [("exhear", "http://example.org/hearing/"),
   ("expsych", "http://example.org/psychiatry/"),
   ("exmed", "http://example.org/medical/"),
   ("excommon", "http://example.org/common/")]

/-- Lookup in the static prefix table (`self.prefix_map.get(prefix)`). -/
def prefixBase (p : String) : Option String :=
  (prefixTable.find? (fun kv => kv.1 == p)).map (fun kv => kv.2)

/-- Python `uri.split(":", 1)` guarded by `":" in uri`. -/
def qnameSplit (uri : String) : Option (String × String) :=
  match splitFirstAt ':' uri.data with
  | none => none
  | some pr => some (String.mk pr.1, String.mk pr.2)

/-- `AgentExecutor._expand_uri` (lines 1657-1667). -/
def expandUri : Option String → Option String
  | none => none
  | some uri =>
    if uri = "" then some uri
    else if pyStartsWith uri "http://" || pyStartsWith uri "https://" then some uri
    else
      match qnameSplit uri with
      | none => some uri
      | some (p, localName) =>
        match prefixBase p with
        | none => some uri
        | some base => some (base ++ localName)

/-- Head of the neighbourhood template before the focus URI hole
(`AgentExecutor._template_neighbourhood_query`, lines 1231-1245). -/
def nbHead : String :=
  "PREFIX rdfs: <http://www.w3.org/2000/01/rdf-schema#>\nSELECT ?source ?relation ?target ?sourceLabel ?targetLabel\nWHERE \x7b\n  VALUES ?source \x7b "

/-- Tail of the neighbourhood template after the focus URI hole. -/
def nbTail : String :=
  " \x7d\n  ?source ?relation ?target .\n  OPTIONAL \x7b ?source rdfs:label ?sourceLabel \x7d\n  OPTIONAL \x7b ?target rdfs:label ?targetLabel \x7d\n\x7d\nLIMIT 100"

/-- `AgentExecutor._template_neighbourhood_query` (lines 1231-1245). -/
def templateNeighbourhoodQuery (conceptUris : List String) : Option String :=
  match conceptUris with
  | [] => none
  | focusUri :: _ => some (nbHead ++ "<" ++ focusUri ++ ">" ++ nbTail)

/-- Fixed pieces of `AgentExecutor._template_multihop_query`
(lines 1247-1286), cut at the two URI interpolation points. -/
def mhHead : String :=
  "PREFIX rdfs: <http://www.w3.org/2000/01/rdf-schema#>\nSELECT ?source ?relation1 ?intermediate1 ?relation2 ?intermediate2 ?relation3 ?target ?label1 ?label2\nWHERE \x7b\n  BIND("

/-- Piece of the multi-hop template between the two URI holes. -/
def mhMid : String :=
  " AS ?source)\n  BIND("

/-- Tail of the multi-hop template after the target URI hole: the
three-branch bounded-hop UNION pattern. -/
def mhTail : String :=
  " AS ?target)\n\n  \x7b\n    ?source ?relation1 ?target .\n    BIND(\"\" AS ?intermediate1)\n    BIND(\"\" AS ?relation2)\n    BIND(\"\" AS ?intermediate2)\n    BIND(\"\" AS ?relation3)\n    BIND(\"\" AS ?label1)\n    BIND(\"\" AS ?label2)\n  \x7d\n  UNION\n  \x7b\n    ?source ?relation1 ?intermediate1 .\n    ?intermediate1 ?relation2 ?target .\n    OPTIONAL \x7b ?intermediate1 rdfs:label ?label1 \x7d\n    BIND(\"\" AS ?intermediate2)\n    BIND(\"\" AS ?relation3)\n    BIND(\"\" AS ?label2)\n  \x7d\n  UNION\n  \x7b\n    ?source ?relation1 ?intermediate1 .\n    ?intermediate1 ?relation2 ?intermediate2 .\n    ?intermediate2 ?relation3 ?target .\n    OPTIONAL \x7b ?intermediate1 rdfs:label ?label1 \x7d\n    OPTIONAL \x7b ?intermediate2 rdfs:label ?label2 \x7d\n  \x7d\n\x7d\nLIMIT 50"

/-- `AgentExecutor._template_multihop_query` (lines 1247-1286). -/
def templateMultihopQuery (conceptUris : List String) : Option String :=
  match conceptUris with
  | sourceUri :: targetUri :: _ =>
    some (mhHead ++ "<" ++ sourceUri ++ ">" ++ mhMid ++ "<" ++ targetUri ++ ">" ++ mhTail)
  | _ => none

/-- Head of the validation template before the subject URI hole
(`AgentExecutor._template_validation_query`, lines 1329-1348). -/
def valHead : String :=
  "PREFIX rdfs: <http://www.w3.org/2000/01/rdf-schema#>\nSELECT ?relation ?target ?targetLabel ?matchesAssertion\nWHERE \x7b\n  "

/-- Piece of the validation template between the subject URI and the
FILTER clause. -/
def valAfterSubject : String := " ?relation ?target .\n  "

/-- The FILTER clause of the validation template: a fixed predicate
allowlist, containing no interpolation hole. -/
def valFilterClause : String :=
  "FILTER(?relation IN (\n    <http://example.org/hearing/hasTreatment>,\n    <http://example.org/hearing/managedBy>,\n    <http://example.org/hearing/requiresTreatment>,\n    <http://example.org/hearing/recommendedTreatment>\n  ))"

/-- Piece of the validation template between the FILTER clause and the
object URI hole in the assertion-match BIND. -/
def valBeforeObject : String :=
  "\n  OPTIONAL \x7b ?target rdfs:label ?targetLabel \x7d\n  BIND((?target = "

/-- Tail of the validation template after the object URI hole. -/
def valTail : String := ") AS ?matchesAssertion)\n\x7d\nLIMIT 50"

/-- `AgentExecutor._template_validation_query` (lines 1329-1348). -/
def templateValidationQuery (conceptUris : List String) : Option String :=
  match conceptUris with
  | subjectUri :: objectUri :: _ =>
    some (valHead ++ "<" ++ subjectUri ++ ">" ++ valAfterSubject ++ valFilterClause
      ++ valBeforeObject ++ "<" ++ objectUri ++ ">" ++ valTail)
  | _ => none

/-- `AgentExecutor._build_fallback_sparql` (lines 1177-1205). -/
def buildFallbackSparql (sid : String) (conceptUris : List String) : Option String :=
  match conceptUris with
  | sourceUri :: targetUri :: _ =>
    if sid = "scenario_2_multihop" then
      some ("PREFIX rdfs: <http://www.w3.org/2000/01/rdf-schema#>\nSELECT ?intermediate ?relation1 ?relation2 ?intermediateLabel\nWHERE \x7b\n  <"
        ++ sourceUri
        ++ "> ?relation1 ?intermediate .\n  ?intermediate ?relation2 <"
        ++ targetUri
        ++ "> .\n  OPTIONAL \x7b ?intermediate rdfs:label ?intermediateLabel \x7d\n\x7d\nLIMIT 25")
    else if sid = "scenario_4_validation" then
      some ("SELECT ?relation\nWHERE \x7b\n  <"
        ++ sourceUri ++ "> ?relation <" ++ targetUri ++ "> .\n\x7d\nLIMIT 10")
    else none
  | _ => none

/-- The unresolved-template markers of
`AgentExecutor._should_apply_template` (lines 1212-1220). -/
def templateMarkers : List String :=
  ["\x7b\x7bSOURCE_URI\x7d\x7d", "\x7b\x7bTARGET_URI\x7d\x7d", "\x7b\x7bCONCEPT_URI\x7d\x7d",
   "<SOURCE_URI>", "<TARGET_URI>", "<CONCEPT_URI>", "__USE_TEMPLATE__"]

/-- `AgentExecutor._should_apply_template` (lines 1207-1229). -/
def shouldApplyTemplate (query : String) : Bool :=
  if query = "" || pyStrip query = "" then true
  else if templateMarkers.any (fun m => pyContains query m) then true
  else
    let upper := pyUpper (pyLStrip query)
    !(pyStartsWith upper "SELECT" || pyStartsWith upper "ASK" || pyStartsWith upper "CONSTRUCT")

/-- `AgentExecutor.scenario_templates` (constructor, lines 51-55). -/
def scenarioTemplateFor (sid : String) : Option (List String → Option String) :=
  if sid = "scenario_1_neighbourhood" then some templateNeighbourhoodQuery
  else if sid = "scenario_2_multihop" then some templateMultihopQuery
  else if sid = "scenario_4_validation" then some templateValidationQuery
  else none

/-- The trivial one-row diagnostic query substituted as a last resort
(`_prepare_sparql_payload`, line 1172). -/
def diagnosticQuery : String := "SELECT ?s ?p ?o WHERE \x7b ?s ?p ?o \x7d LIMIT 1"

/-- Final guard of `_prepare_sparql_payload` (lines 1171-1172): an empty
(after stripping) query text is replaced by the diagnostic query. -/
def ensureNonEmptyQuery (q : String) : String :=
  if pyStrip q = "" then diagnosticQuery else q

/-- The mutable SPARQL step payload: `query` is `none` when the key is
absent or holds a non-string value (the code then coerces it to `""`). -/
structure SparqlPayload where
  query : Option String
  kgPayload : Option String
deriving DecidableEq

/-- Python `query.replace(placeholder, value)` guarded by
`placeholder in query` (lines 1149-1151). -/
def replaceIfPresent (q marker value : String) : String :=
  if pyContains q marker then pyReplace q marker value else q

/-- Placeholder substitution for one resolved URI: the two markers are
replaced in dict-insertion order, and only when the URI is truthy
(lines 1141-1151). -/
def substPlaceholders (query : String) (uriOpt : Option String) (m1 m2 : String) : String :=
  match uriOpt with
  | none => query
  | some u =>
    if u != "" then
      replaceIfPresent (replaceIfPresent query m1 ("<" ++ u ++ ">")) m2 ("<" ++ u ++ ">")
    else query

/-- `AgentExecutor._prepare_sparql_payload` (lines 1124-1175), with the
execution context reduced to its `concept_uris` list (the only context
field the function reads). -/
def prepareSparqlPayload (payload : SparqlPayload) (conceptUris : List String)
    (kgName sid : String) : SparqlPayload :=
  let kg := payload.kgPayload.getD kgName
  let query0 := payload.query.getD ""
  let q1 := substPlaceholders query0 conceptUris[0]? "\x7b\x7bSOURCE_URI\x7d\x7d" "<SOURCE_URI>"
  let q2 := substPlaceholders q1 conceptUris[1]? "\x7b\x7bTARGET_URI\x7d\x7d" "<TARGET_URI>"
  let q3 :=
    if pyContains (pyUpper q2) "CONSTRUCT" && !(pyContains (pyUpper q2) "SELECT") then
      match buildFallbackSparql sid conceptUris with
      | some fb => fb
      | none => q2
    else q2
  let q4 :=
    if shouldApplyTemplate q3 then
      match scenarioTemplateFor sid with
      | some templateFn =>
        match templateFn conceptUris with
        | some tq => tq
        | none => q3
      | none => q3
    else q3
  ⟨some (ensureNonEmptyQuery q4), some kg⟩

/-- Terminal status of the per-step retry loop in
`AgentExecutor.execute_scenario` (lines 293-376). -/
inductive LoopOutcome where
  | succeeded
  | raised
  | interrupted
deriving DecidableEq

/-- Observable cost of one run of the retry loop. -/
structure LoopStats where
  outcome : LoopOutcome
  execs : Nat
  regens : Nat
deriving DecidableEq

/-- The query-execution retry loop of `AgentExecutor.execute_scenario`
(lines 293-376) for a SPARQL step.  Each list entry models one loop
iteration: whether the tool call returned 2xx, and whether the repair
oracle (`_regenerate_sparql_query`) produced a usable query if it was
consulted.  `interrupted` is returned only when the supplied outcome list
is exhausted; `execs`/`regens` count executions and accepted
regenerations.  Mirrors: bound `regen_attempts < 7`, the single
`fallback_attempted` flag, and the `regen_attempts = 0` reset when the
fallback fires. -/
def resilienceLoop (fallbackAvailable : Bool) (attempts : List (Bool × Bool))
    (regenAttempts : Nat) (fallbackAttempted : Bool) (execs regens : Nat) : LoopStats :=
  match attempts with
  | [] => ⟨.interrupted, execs, regens⟩
  | (execOk, repairOk) :: rest =>
    if execOk then ⟨.succeeded, execs + 1, regens⟩
    else if decide (regenAttempts < 7) && repairOk then
      resilienceLoop fallbackAvailable rest (regenAttempts + 1) fallbackAttempted (execs + 1) (regens + 1)
    else if !fallbackAttempted && fallbackAvailable then
      resilienceLoop fallbackAvailable rest 0 true (execs + 1) regens
    else ⟨.raised, execs + 1, regens⟩

/-- The retry loop as entered for a step (`fallback_attempted = False`,
`regen_attempts = 0`); fallback availability is what
`_build_fallback_sparql` returns for the scenario and resolved URIs. -/
def resilienceLoopFor (sid : String) (conceptUris : List String)
    (attempts : List (Bool × Bool)) : LoopStats :=
  resilienceLoop (buildFallbackSparql sid conceptUris).isSome attempts 0 false 0 0

/-- A SPARQL result row: a string-keyed record, modelled as an
association list (`row.get(k)` is the first value bound to `k`). -/
abbrev Row := List (String × String)

/-- Python `row.get(k)`. -/
def rowGet (r : Row) (k : String) : Option String :=
  (r.find? (fun kv => kv.1 == k)).map (fun kv => kv.2)

/-- A visualization node (`{"id": ..., "label": ..., "type": ...}`);
fields are optional so arbitrary pre-existing node dicts are covered.
`ntype` models the `"type"` key. -/
structure GNode where
  id : Option String
  label : Option String
  ntype : Option String
deriving DecidableEq

/-- A visualization link (`{"source": ..., "target": ..., "relation": ...}`). -/
structure GLink where
  source : Option String
  target : Option String
  relation : Option String
deriving DecidableEq

/-- Link key as used by `_merge_graph_results`'s `link_set`:
`(link.get("source"), link.get("target"), link.get("relation"))`. -/
abbrev LinkKey := Option String × Option String × Option String

/-- Key of a link record. -/
def linkKey (l : GLink) : LinkKey := (l.source, l.target, l.relation)

/-- The `results` accumulator (its `nodes` and `links` entries). -/
structure GraphResults where
  nodes : List GNode
  links : List GLink
deriving DecidableEq

/-- The last node with the given id: this is the entry the Python dict
comprehension `{node["id"]: node for node in nodes}` retains, and the
object through which label updates are aliased. -/
def lookupLast (nodes : List GNode) (uri : String) : Option GNode :=
  match nodes with
  | [] => none
  | n :: rest =>
    match lookupLast rest uri with
    | some m => some m
    | none => if n.id = some uri then some n else none

/-- Overwrite the label of the last node with the given id (the aliased
dict mutation `node_index[uri]["label"] = label`). -/
def updateLastLabel (nodes : List GNode) (uri lbl : String) : List GNode :=
  match nodes with
  | [] => []
  | n :: rest =>
    if (lookupLast rest uri).isSome then n :: updateLastLabel rest uri lbl
    else if n.id = some uri then { n with label := some lbl } :: rest
    else n :: rest

/-- `AgentExecutor._infer_label` (lines 1521-1530). -/
def inferLabel (uri : String) : String :=
  if uri = "" then "Unknown"
  else if pyContainsChar uri '#' && !(afterLastSep '#' uri.data).isEmpty then
    String.mk (afterLastSep '#' uri.data)
  else if pyContainsChar uri '/' && !(afterLastSep '/' uri.data).isEmpty then
    String.mk (afterLastSep '/' uri.data)
  else uri

/-- `ensure_node` inside `_merge_graph_results` (lines 1466-1479):
creates a missing node with the given or inferred label, or upgrades an
empty/missing label to a truthy one. -/
def ensureNode (nodes : List GNode) (uriOpt lblOpt : Option String) : List GNode :=
  match uriOpt with
  | none => nodes
  | some uri =>
    if uri = "" then nodes
    else
      match lookupLast nodes uri with
      | none =>
        nodes ++ [⟨some uri,
          some (if pyTruthy lblOpt then lblOpt.getD "" else inferLabel uri),
          some "concept"⟩]
      | some n =>
        if pyTruthy lblOpt && !(pyTruthy n.label) then
          updateLastLabel nodes uri (lblOpt.getD "")
        else nodes

/-- Source URI of a row: alias chain `source`/`subject`/`s`, then the
context's first resolved URI (lines 1462-1482). -/
def rowSource (row : Row) (ctx : List String) : Option String :=
  pyOr (rowGet row "source") (pyOr (rowGet row "subject") (pyOr (rowGet row "s") ctx[0]?))

/-- Target URI of a row: alias chain `target`/`object`/`o`, then the
context's second resolved URI. -/
def rowTarget (row : Row) (ctx : List String) : Option String :=
  pyOr (rowGet row "target") (pyOr (rowGet row "object") (pyOr (rowGet row "o") ctx[1]?))

/-- Relation of a row: alias chain `relation`/`predicate`/`p`. -/
def rowRelation (row : Row) : Option String :=
  pyOr (rowGet row "relation") (pyOr (rowGet row "predicate") (rowGet row "p"))

/-- Intermediate node of a row: alias chain
`intermediate`/`inter1`/`intermediateNode` (lines 1489-1493). -/
def rowIntermediate (row : Row) : Option String :=
  pyOr (rowGet row "intermediate") (pyOr (rowGet row "inter1") (rowGet row "intermediateNode"))

/-- Intermediate label alias chain (lines 1494-1498). -/
def rowIntermediateLabel (row : Row) : Option String :=
  pyOr (rowGet row "intermediateLabel")
    (pyOr (rowGet row "inter1Label") (rowGet row "intermediate_nodeLabel"))

/-- First hop relation alias chain `relation1`/`r1` (line 1499). -/
def rowRel1 (row : Row) : Option String :=
  pyOr (rowGet row "relation1") (rowGet row "r1")

/-- Second hop relation alias chain `relation2`/`r2`/`relation3`/`r3`
(line 1500). -/
def rowRel2 (row : Row) : Option String :=
  pyOr (rowGet row "relation2") (pyOr (rowGet row "r2") (pyOr (rowGet row "relation3") (rowGet row "r3")))

/-- Working state of one `_merge_graph_results` call: the evolving node
and link lists plus the `link_set` of keys. -/
structure MergeState where
  nodes : List GNode
  links : List GLink
  lkeys : List LinkKey
deriving DecidableEq

/-- Guarded link append (lines 1504-1519): insert only when the
(source, target, relation) key is not yet in the key set. -/
def addLink (st : MergeState) (src tgt rel : String) : MergeState :=
  let key : LinkKey := (some src, some tgt, some rel)
  if key ∈ st.lkeys then st
  else ⟨st.nodes, st.links ++ [⟨some src, some tgt, some rel⟩], st.lkeys ++ [key]⟩

/-- Processing of one row by `_merge_graph_results` (lines 1481-1519). -/
def processRow (ctx : List String) (st : MergeState) (row : Row) : MergeState :=
  let sourceUri := rowSource row ctx
  let targetUri := rowTarget row ctx
  let rel := rowRelation row
  let nodes1 := ensureNode st.nodes sourceUri (rowGet row "sourceLabel")
  let nodes2 := ensureNode nodes1 targetUri (rowGet row "targetLabel")
  let inter := rowIntermediate row
  if pyTruthy inter then
    let nodes3 := ensureNode nodes2 inter (rowIntermediateLabel row)
    let st1 : MergeState := ⟨nodes3, st.links, st.lkeys⟩
    let st2 :=
      if pyTruthy sourceUri && pyTruthy (rowRel1 row) then
        addLink st1 (sourceUri.getD "") (inter.getD "") ((rowRel1 row).getD "")
      else st1
    if pyTruthy targetUri && pyTruthy (rowRel2 row) then
      addLink st2 (inter.getD "") (targetUri.getD "") ((rowRel2 row).getD "")
    else st2
  else
    let st1 : MergeState := ⟨nodes2, st.links, st.lkeys⟩
    if pyTruthy sourceUri && pyTruthy targetUri && pyTruthy rel then
      addLink st1 (sourceUri.getD "") (targetUri.getD "") (rel.getD "")
    else st1

/-- The node-list effect of processing one row: the up-to-three
`ensure_node` calls of lines 1486-1503 (the link inserts never touch the
node list). -/
def rowEnsureNodes (ctx : List String) (nodes : List GNode) (row : Row) : List GNode :=
  let n1 := ensureNode nodes (rowSource row ctx) (rowGet row "sourceLabel")
  let n2 := ensureNode n1 (rowTarget row ctx) (rowGet row "targetLabel")
  if pyTruthy (rowIntermediate row) then
    ensureNode n2 (rowIntermediate row) (rowIntermediateLabel row)
  else n2

/-- `AgentExecutor._merge_graph_results` (lines 1442-1519).  The unused
`sid` argument mirrors the Python `scenario_id` parameter, which the
function body never reads; the context is reduced to `concept_uris`. -/
def mergeGraphResults (sid : String) (ctx : List String) (res : GraphResults)
    (rows : List Row) : GraphResults :=
  let _ := sid
  if rows.isEmpty then res
  else
    let st0 : MergeState := ⟨res.nodes, res.links, res.links.map linkKey⟩
    let stF := rows.foldl (processRow ctx) st0
    ⟨stF.nodes, stF.links⟩

/-- A sequence of merge calls on the accumulator, each with its own
scenario id, context and row set. -/
def mergeSeq (calls : List (String × List String × List Row)) (res : GraphResults) : GraphResults :=
  calls.foldl (fun acc c => mergeGraphResults c.1 c.2.1 acc c.2.2) res

/-- Pairwise distinctness of link keys ("no duplicate link key ever
produces two entries"). -/
def keysDistinct (links : List GLink) : Prop := (links.map linkKey).Nodup

/-- A concept candidate from the similarity search. -/
structure Concept where
  uri : Option String
  label : Option String
  description : Option String
deriving DecidableEq

/-- Python `(c.get("uri", "") or "")`. -/
def uriStr (c : Concept) : String := c.uri.getD ""

/-- The generic-namespace blacklist of `_select_best_concept`
(lines 1575-1578). -/
def blacklistPrefixes : List String := ["http://www.w3.org/", "https://www.w3.org/"]

/-- The preferred-namespace allowlist of `_select_best_concept`
(lines 1579-1582). -/
def preferredPrefixes : List String := ["http://example.org/", "https://example.org/"]

/-- Is the candidate's URI in a blacklisted generic namespace? -/
def blacklistedConcept (c : Concept) : Bool :=
  blacklistPrefixes.any (fun p => pyStartsWith (uriStr c) p)

/-- Is the candidate's URI in a preferred namespace? -/
def preferredConcept (c : Concept) : Bool :=
  preferredPrefixes.any (fun p => pyStartsWith (uriStr c) p)

/-- In-place URI expansion `concept["uri"] = self._expand_uri(...)`. -/
def expandConcept (c : Concept) : Concept := { c with uri := expandUri c.uri }

/-- `AgentExecutor._choose_best_concept_with_llm` (lines 1607-1655).  The
oracle answer is a parameter; `none` models an exception from the
text-completion service. -/
def chooseBestConceptWithLLM (queryText : String) (cs : List Concept)
    (oracleResponse : Option String) : Option Concept :=
  let _ := queryText
  let topK := (cs.take 5).map expandConcept
  match oracleResponse with
  | none => none
  | some raw =>
    let content := pyStrip raw
    if content = "" || pyUpper content = "UNKNOWN" then none
    else topK.find? (fun c => content == c.uri.getD "")

/-- `AgentExecutor._select_best_concept` (lines 1566-1605). -/
def selectBestConcept (queryText : String) (concepts : List Concept)
    (oracleResponse : Option String) : Option Concept :=
  match concepts with
  | [] => none
  | _ =>
    let filtered := concepts.filter (fun c => !(blacklistedConcept c))
    let cs1 := if filtered.isEmpty then concepts else filtered
    if cs1.isEmpty then none
    else
      let preferredList := cs1.filter preferredConcept
      if cs1.length = 1 then cs1.head?.map expandConcept
      else
        let cs2 := if preferredList.isEmpty then cs1 else preferredList
        match chooseBestConceptWithLLM queryText cs2 oracleResponse with
        | some choice => some (expandConcept choice)
        | none => cs2.head?.map expandConcept

/-- `AgentExecutor._format_csv_value` (lines 1350-1356). -/
def formatCsvValue (v : Option String) : String :=
  match v with
  | none => ""
  | some s =>
    let text := pyStrip (pyReplace (pyReplace s "\n" " ") "\r" " ")
    if pyContains text "," || pyContains text "\"" then
      "\"" ++ pyReplace text "\"" "\"\"" ++ "\""
    else text

/-- Header union over rows, preserving first-seen order
(`_rows_to_csv`, lines 1366-1370). -/
def csvHeaders (rows : List Row) : List String :=
  rows.foldl
    (fun hs r => r.foldl (fun hs kv => if kv.1 ∈ hs then hs else hs ++ [kv.1]) hs) []

/-- `AgentExecutor._rows_to_csv` (lines 1358-1379). -/
def rowsToCsv (maxRows : Nat) (rows : List Row) : String :=
  if rows.isEmpty then ""
  else
    let headers := csvHeaders rows
    let limited := rows.take maxRows
    String.intercalate "\n"
      ([String.intercalate "," headers] ++
        limited.map (fun r =>
          String.intercalate "," (headers.map (fun h => formatCsvValue (rowGet r h)))))

/-- The interpret step payload fields read by
`_handle_interpret_request`; `sparqlResults` models
`payload.get("sparql_results", "")`. -/
structure InterpretPayload where
  guidance : Option String
  sparqlResults : String
deriving DecidableEq

/-- The fixed no-data message of `_handle_interpret_request`
(lines 1398-1403). -/
def noDataMessage : String :=
  "Aucune donnée exploitable n'a été renvoyée. Reformulez la question ou vérifiez les concepts sélectionnés."

/-- `AgentExecutor._handle_interpret_request` (lines 1381-1440), returning
the interpretation together with whether the oracle was invoked.  The
oracle answer is a parameter (`none` models an exception). -/
def handleInterpretRequest (payload : InterpretPayload) (lastSparqlRows : List Row)
    (oracleResponse : Option String) : String × Bool :=
  let csvContent :=
    if !lastSparqlRows.isEmpty then rowsToCsv 100 lastSparqlRows
    else pyStrip payload.sparqlResults
  if csvContent = "" then (noDataMessage, false)
  else
    match oracleResponse with
    | none => ("Une erreur est survenue pendant la synthèse. Merci de réessayer ultérieurement.", true)
    | some resp =>
      let interp := pyStrip resp
      (if interp = "" then "Impossible de générer une synthèse à partir des données fournies."
       else interp, true)

/-- The structured payload returned by the default fallback flow. -/
structure DefaultFlowResult where
  scenarioKey : String
  scenarioName : String
  question : String
  kgName : String
  nodes : List GNode
  links : List GLink
  summary : String
  sparqlQueries : List String
deriving DecidableEq

/-- `AgentExecutor._execute_default_flow` (lines 1722-1799), with the
external call results (entities, concepts, SPARQL rows, interpretation)
as parameters.  When the concept list is empty the Python function falls
through its `if concepts:` block and implicitly returns `None`. -/
def executeDefaultFlow (question kgName : String) (entities : List String)
    (concepts : List Concept) (sparqlRows : List Row) (interpretation : String) :
    Option DefaultFlowResult :=
  let _ := entities
  let _ := sparqlRows
  match concepts with
  | [] => none
  | c0 :: _ =>
    some
      { scenarioKey := "fallback"
        scenarioName := "Default Flow"
        question := question
        kgName := kgName
        nodes := concepts.map (fun c => ⟨some (c.uri.getD ""), some (c.label.getD ""), some "concept"⟩)
        links := []
        summary := interpretation
        sparqlQueries :=
          ["SELECT ?p ?o WHERE \x7b <" ++ c0.uri.getD "" ++ "> ?p ?o \x7d LIMIT 20"] }

/-! Semantic predicates used by the theorems. -/

/-- The node for `uriOpt` (when truthy) exists and its label already
dominates `lblOpt`: exactly the condition under which `ensure_node` is a
no-op. -/
def nodeStable (nodes : List GNode) (uriOpt lblOpt : Option String) : Prop :=
  ∀ u, uriOpt = some u → u ≠ "" →
    ∃ n, lookupLast nodes u = some n ∧ (pyTruthy lblOpt = true → pyTruthy n.label = true)

/-- The state already absorbs the row: all nodes the row would ensure are
stable and all links it would insert are keyed in `lks`. -/
def rowAbsorbed (ctx : List String) (nodes : List GNode) (lks : List LinkKey) (row : Row) : Prop :=
  nodeStable nodes (rowSource row ctx) (rowGet row "sourceLabel") ∧
  nodeStable nodes (rowTarget row ctx) (rowGet row "targetLabel") ∧
  (pyTruthy (rowIntermediate row) = true →
    nodeStable nodes (rowIntermediate row) (rowIntermediateLabel row) ∧
    (pyTruthy (rowSource row ctx) = true → pyTruthy (rowRel1 row) = true →
      (rowSource row ctx, rowIntermediate row, rowRel1 row) ∈ lks) ∧
    (pyTruthy (rowTarget row ctx) = true → pyTruthy (rowRel2 row) = true →
      (rowIntermediate row, rowTarget row ctx, rowRel2 row) ∈ lks)) ∧
  (pyTruthy (rowIntermediate row) = false →
    pyTruthy (rowSource row ctx) = true → pyTruthy (rowTarget row ctx) = true →
    pyTruthy (rowRelation row) = true →
    (rowSource row ctx, rowTarget row ctx, rowRelation row) ∈ lks)

/-- The key set and the keys of the link list agree (true throughout any
`_merge_graph_results` call). -/
def keysAligned (st : MergeState) : Prop :=
  ∀ k : LinkKey, k ∈ st.lkeys ↔ k ∈ st.links.map linkKey

/-! Helper lemmas about the Python string model. -/

theorem strData_append (a b : String) : (a ++ b).data = a.data ++ b.data := by
  cases a; cases b; rfl

theorem subListOccurs_of_prefix {a h : List Char} (hp : a.isPrefixOf h = true) :
    subListOccurs a h = true := by
  cases h with
  | nil => simpa [subListOccurs] using hp
  | cons c cs => simp [subListOccurs, hp]

theorem subListOccurs_cons_of (a : List Char) (c : Char) (l : List Char)
    (h : subListOccurs a l = true) : subListOccurs a (c :: l) = true := by
  simp [subListOccurs, h]

theorem subListOccurs_append (x a y : List Char) : subListOccurs a (x ++ a ++ y) = true := by
  induction x with
  | nil =>
    have hp : a.isPrefixOf (a ++ y) = true :=
      List.isPrefixOf_iff_prefix.mpr (List.prefix_append a y)
    simpa using subListOccurs_of_prefix hp
  | cons c cs ih =>
    have heq : (c :: cs) ++ a ++ y = c :: (cs ++ a ++ y) := by simp
    rw [heq]
    exact subListOccurs_cons_of a c _ ih

theorem subListOccurs_of_infix {a l : List Char} (h : a <:+: l) :
    subListOccurs a l = true := by
  obtain ⟨x, y, rfl⟩ := h
  exact subListOccurs_append x a y

theorem pyContains_of_infix {s sub : String} (h : sub.data <:+: s.data) :
    pyContains s sub = true :=
  subListOccurs_of_infix h

theorem pyStartsWith_append {b p : String} (l : String) (h : pyStartsWith b p = true) :
    pyStartsWith (b ++ l) p = true := by
  unfold pyStartsWith at h ⊢
  rw [strData_append]
  exact List.isPrefixOf_iff_prefix.mpr
    ((List.isPrefixOf_iff_prefix.mp h).trans (List.prefix_append b.data l.data))

theorem prefixBase_startsWith_http {p b : String} (h : prefixBase p = some b) :
    pyStartsWith b "http://" = true := by
  unfold prefixBase at h
  obtain ⟨kv, hfind, hb⟩ := Option.map_eq_some'.mp h
  have hmem := List.mem_of_find?_eq_some hfind
  subst hb
  simp only [prefixTable, List.mem_cons, List.not_mem_nil, or_false] at hmem
  rcases hmem with h | h | h | h <;> subst h <;> decide

theorem prefixBase_not_w3 {p b : String} (h : prefixBase p = some b) (l : String) :
    pyStartsWith (b ++ l) "http://www.w3.org/" = false ∧
    pyStartsWith (b ++ l) "https://www.w3.org/" = false := by
  unfold prefixBase at h
  obtain ⟨kv, hfind, hb⟩ := Option.map_eq_some'.mp h
  have hmem := List.mem_of_find?_eq_some hfind
  subst hb
  simp only [prefixTable, List.mem_cons, List.not_mem_nil, or_false] at hmem
  rcases hmem with h | h | h | h <;> subst h <;>
    exact ⟨by unfold pyStartsWith; rw [strData_append]; rfl,
           by unfold pyStartsWith; rw [strData_append]; rfl⟩

/-! C10 -/

/-- C10: `_expand_uri` is conservative — it returns the input unchanged
when the input is `None`, already starts with `http://` or `https://`,
contains no colon (`qnameSplit` is `none`), or uses a prefix absent from
the static prefix table — and consequently it is idempotent:
`expand(expand(u)) = expand(u)` for every `u`. -/
theorem expand_uri_idempotent_conservative :
    expandUri none = none ∧
    (∀ u : String, pyStartsWith u "http://" = true ∨ pyStartsWith u "https://" = true →
      expandUri (some u) = some u) ∧
    (∀ u : String, qnameSplit u = none → expandUri (some u) = some u) ∧
    (∀ u p l : String, qnameSplit u = some (p, l) → prefixBase p = none →
      expandUri (some u) = some u) ∧
    (∀ uo : Option String, expandUri (expandUri uo) = expandUri uo) := by
  have hstart : ∀ u : String,
      pyStartsWith u "http://" = true ∨ pyStartsWith u "https://" = true →
      expandUri (some u) = some u := by
    intro u h
    by_cases he : u = ""
    · simp [expandUri, he]
    · rcases h with h | h <;> simp [expandUri, he, h]
  have hnocolon : ∀ u : String, qnameSplit u = none → expandUri (some u) = some u := by
    intro u h
    by_cases he : u = ""
    · simp [expandUri, he]
    · by_cases hs : pyStartsWith u "http://" || pyStartsWith u "https://"
      · simp [expandUri, he, hs]
      · simp [expandUri, he, hs, h]
  have hnoprefix : ∀ u p l : String, qnameSplit u = some (p, l) → prefixBase p = none →
      expandUri (some u) = some u := by
    intro u p l hq hp
    by_cases he : u = ""
    · simp [expandUri, he]
    · by_cases hs : pyStartsWith u "http://" || pyStartsWith u "https://"
      · simp [expandUri, he, hs]
      · simp [expandUri, he, hs, hq, hp]
  refine ⟨rfl, hstart, hnocolon, hnoprefix, ?_⟩
  intro uo
  match uo with
  | none => rfl
  | some u =>
    by_cases he : u = ""
    · simp [expandUri, he]
    · by_cases hs : pyStartsWith u "http://" || pyStartsWith u "https://"
      · have heq : expandUri (some u) = some u := by simp [expandUri, he, hs]
        rw [heq, heq]
      · match hq : qnameSplit u with
        | none =>
          have heq := hnocolon u hq
          rw [heq, heq]
        | some (p, l) =>
          match hp : prefixBase p with
          | none =>
            have heq := hnoprefix u p l hq hp
            rw [heq, heq]
          | some base =>
            have heq : expandUri (some u) = some (base ++ l) := by
              simp [expandUri, he, hs, hq, hp]
            rw [heq]
            have hb : pyStartsWith (base ++ l) "http://" = true :=
              pyStartsWith_append l (prefixBase_startsWith_http hp)
            exact hstart (base ++ l) (Or.inl hb)

/-- Witness for C10 at concrete inputs. -/
theorem expand_uri_idempotent_conservative_witness :
    expandUri (some "http://x") = some "http://x" ∧
    expandUri (some "abc") = some "abc" ∧
    expandUri (some "rdf:type") = some "rdf:type" ∧
    expandUri (expandUri (some "exhear:Tinnitus")) = expandUri (some "exhear:Tinnitus") := by
  refine ⟨?_, ?_, ?_, ?_⟩
  · exact expand_uri_idempotent_conservative.2.1 "http://x" (Or.inl (by decide))
  · exact expand_uri_idempotent_conservative.2.2.1 "abc" (by decide)
  · exact expand_uri_idempotent_conservative.2.2.2.1 "rdf:type" "rdf" "type"
      (by decide) (by decide)
  · exact expand_uri_idempotent_conservative.2.2.2.2 (some "exhear:Tinnitus")

/-! C1 -/

/-- C1: for every plan-step payload, execution context, knowledge-graph
name and scenario identifier, the query text produced by
`_prepare_sparql_payload` is non-empty after stripping whitespace — when
no scenario template applies and the text is still empty, the trivial
one-row diagnostic query is substituted. -/
theorem prepare_sparql_payload_query_nonempty
    (payload : SparqlPayload) (conceptUris : List String) (kgName sid : String) :
    pyStrip ((prepareSparqlPayload payload conceptUris kgName sid).query.getD "") ≠ "" := by
  have hgen : ∀ q : String, pyStrip (ensureNonEmptyQuery q) ≠ "" := by
    intro q
    unfold ensureNonEmptyQuery
    split
    · decide
    · next h => exact h
  simp only [prepareSparqlPayload, Option.getD_some]
  exact hgen _

/-! C2 -/

/-- Execution and regeneration budgets of the retry loop from an
arbitrary state: before the fallback has fired up to `16 - r` more
executions and `14 - r` more accepted regenerations can happen; after it,
up to `8 - r` and `7 - r`. -/
theorem resilienceLoop_bounded (fa : Bool) (attempts : List (Bool × Bool)) :
    ∀ (r : Nat) (fb : Bool) (execs regens : Nat), r ≤ 7 →
      (resilienceLoop fa attempts r fb execs regens).execs ≤
        execs + (if fb then 8 - r else 16 - r) ∧
      (resilienceLoop fa attempts r fb execs regens).regens ≤
        regens + (if fb then 7 - r else 14 - r) := by
  induction attempts with
  | nil =>
    intro r fb e g hr
    cases fb <;> simp [resilienceLoop]
  | cons a rest ih =>
    intro r fb e g hr
    obtain ⟨ok, rep⟩ := a
    cases ok
    · by_cases h7 : r < 7
      · have hd : decide (r < 7) = true := by simpa using h7
        cases rep
        · cases fb
          · cases fa
            · simp [resilienceLoop, hd]; omega
            · have H := ih 0 true (e + 1) g (by omega)
              simp at H
              simp [resilienceLoop, hd]
              omega
          · simp [resilienceLoop, hd]; omega
        · have H := ih (r + 1) fb (e + 1) (g + 1) (by omega)
          cases fb <;> simp [resilienceLoop, hd] at H ⊢ <;> omega
      · have hd : decide (r < 7) = false := by simpa using h7
        cases fb
        · cases fa
          · simp [resilienceLoop, hd]; omega
          · have H := ih 0 true (e + 1) g (by omega)
            simp at H
            simp [resilienceLoop, hd]
            omega
        · simp [resilienceLoop, hd]; omega
    · cases fb <;> simp [resilienceLoop] <;> omega

/-- C2 (amended): the retry loop always terminates, but because the
single fallback resets the regeneration counter, a query-execution step
can cost up to 2 × (regeneration bound + 1) = 16 execution attempts and
up to 14 accepted regenerations — not (bound + 1) = 8 attempts as the
spec claims.  The counter itself never exceeds seven between resets. -/
theorem resilience_loop_terminates_within_double_bound
    (sid : String) (conceptUris : List String) (attempts : List (Bool × Bool)) :
    (resilienceLoopFor sid conceptUris attempts).execs ≤ 16 ∧
    (resilienceLoopFor sid conceptUris attempts).regens ≤ 14 := by
  have h := resilienceLoop_bounded ((buildFallbackSparql sid conceptUris).isSome)
    attempts 0 false 0 0 (by omega)
  simpa [resilienceLoopFor] using h

/-- C2 counterexample: with a fallback-capable scenario, two resolved
URIs, a repair oracle that always produces a query and a service that
always rejects, the loop performs 16 execution attempts and 14
regenerations for the single step — refuting the claimed
(bound + 1) = 8 attempt cost and the seven-regeneration total. -/
theorem resilience_loop_exceeds_spec_bound :
    ¬ ((resilienceLoopFor "scenario_2_multihop"
          ["http://example.org/psychiatry/ChronicStress",
           "http://example.org/hearing/HearingLoss"]
          (List.replicate 20 (false, true))).execs ≤ 8 ∧
       (resilienceLoopFor "scenario_2_multihop"
          ["http://example.org/psychiatry/ChronicStress",
           "http://example.org/hearing/HearingLoss"]
          (List.replicate 20 (false, true))).regens ≤ 7) := by
  decide

/-! C8 -/

/-- C8: for every interpretation step whose accumulated tabular result
set is empty — no rows in the context and no non-blank CSV text in the
step payload — the returned summary is the fixed no-data message and the
oracle is not invoked. -/
theorem handle_interpret_request_no_data
    (payload : InterpretPayload) (rows : List Row) (oracleResponse : Option String)
    (hrows : rows = []) (hcsv : pyStrip payload.sparqlResults = "") :
    handleInterpretRequest payload rows oracleResponse = (noDataMessage, false) := by
  subst hrows
  simp [handleInterpretRequest, hcsv]

/-- Witness for C8 at a concrete input. -/
theorem handle_interpret_request_no_data_witness :
    handleInterpretRequest ⟨none, "   "⟩ [] (some "une synthèse") = (noDataMessage, false) :=
  handle_interpret_request_no_data ⟨none, "   "⟩ [] (some "une synthèse") rfl (by decide)

/-! C9 -/

/-- C9 (implicit behaviour, confirmed): when the oracle's plan fails to
parse and the fallback default flow's concept search returns an empty
concept list, `_execute_default_flow` falls through its `if concepts:`
branch and returns `None`, so `execute_scenario` resolves to `None`
instead of a structured result payload. -/
theorem execute_default_flow_empty_concepts_returns_none
    (question kgName : String) (entities : List String) (sparqlRows : List Row)
    (interpretation : String) :
    executeDefaultFlow question kgName entities [] sparqlRows interpretation = none := rfl

/-! C7 -/

theorem infix_of_subListOccurs {a l : List Char} (h : subListOccurs a l = true) :
    a <:+: l := by
  induction l with
  | nil =>
    simp only [subListOccurs] at h
    obtain ⟨t, ht⟩ := List.isPrefixOf_iff_prefix.mp h
    exact ⟨[], t, by simp [ht]⟩
  | cons c cs ih =>
    simp only [subListOccurs, Bool.or_eq_true] at h
    rcases h with h | h
    · obtain ⟨t, ht⟩ := List.isPrefixOf_iff_prefix.mp h
      exact ⟨[], t, by simp [ht]⟩
    · obtain ⟨x, y, hxy⟩ := ih h
      refine ⟨c :: x, y, ?_⟩
      simp only [List.cons_append]
      rw [hxy]

theorem pyContains_of_parts (x pat y s : String)
    (h : s.data = x.data ++ pat.data ++ y.data) : pyContains s pat = true := by
  unfold pyContains
  rw [h]
  exact subListOccurs_append x.data pat.data y.data

theorem pyContains_inner (x t y s pat : String)
    (h : pyContains t pat = true) (hs : s.data = x.data ++ t.data ++ y.data) :
    pyContains s pat = true := by
  apply pyContains_of_infix
  have h1 : pat.data <:+: t.data := infix_of_subListOccurs h
  have h2 : t.data <:+: s.data := ⟨x.data, y.data, by rw [hs]⟩
  exact h1.trans h2

/-- C7: the neighbourhood template always embeds the first resolved URI;
the multi-hop template embeds both resolved URIs inside its bounded-hop
UNION pattern; the validation template is the fixed decomposition in
which the FILTER clause is the constant predicate allowlist
`valFilterClause` — it contains the four allowed predicates and no
interpolation hole, and the object URI appears only later, inside the
assertion-match BIND (`valBeforeObject ++ "<" ++ b ++ ">"`). -/
theorem scenario_templates_embed_uris :
    (∀ (a : String) (rest : List String), ∃ q,
      templateNeighbourhoodQuery (a :: rest) = some q ∧
      pyContains q ("<" ++ a ++ ">") = true) ∧
    (∀ (a b : String) (rest : List String), ∃ q,
      templateMultihopQuery (a :: b :: rest) = some q ∧
      pyContains q ("<" ++ a ++ ">") = true ∧
      pyContains q ("<" ++ b ++ ">") = true ∧
      pyContains q "UNION" = true) ∧
    (∀ (a b : String) (rest : List String),
      templateValidationQuery (a :: b :: rest) =
        some (valHead ++ "<" ++ a ++ ">" ++ valAfterSubject ++ valFilterClause ++
          valBeforeObject ++ "<" ++ b ++ ">" ++ valTail)) ∧
    pyContains valFilterClause "<http://example.org/hearing/hasTreatment>" = true ∧
    pyContains valFilterClause "<http://example.org/hearing/managedBy>" = true ∧
    pyContains valFilterClause "<http://example.org/hearing/requiresTreatment>" = true ∧
    pyContains valFilterClause "<http://example.org/hearing/recommendedTreatment>" = true ∧
    pyStartsWith valFilterClause "FILTER(?relation IN (" = true := by
  refine ⟨?_, ?_, ?_, by decide, by decide, by decide, by decide, by decide⟩
  · intro a rest
    refine ⟨nbHead ++ "<" ++ a ++ ">" ++ nbTail, rfl, ?_⟩
    exact pyContains_of_parts nbHead ("<" ++ a ++ ">") nbTail _
      (by simp [strData_append])
  · intro a b rest
    refine ⟨mhHead ++ "<" ++ a ++ ">" ++ mhMid ++ "<" ++ b ++ ">" ++ mhTail, rfl, ?_, ?_, ?_⟩
    · exact pyContains_of_parts mhHead ("<" ++ a ++ ">")
        (mhMid ++ "<" ++ b ++ ">" ++ mhTail) _ (by simp [strData_append])
    · exact pyContains_of_parts (mhHead ++ "<" ++ a ++ ">" ++ mhMid) ("<" ++ b ++ ">")
        mhTail _ (by simp [strData_append])
    · exact pyContains_inner (mhHead ++ "<" ++ a ++ ">" ++ mhMid ++ "<" ++ b ++ ">")
        mhTail "" _ "UNION" (by decide) (by simp [strData_append])
  · intro a b rest
    rfl

/-! C6 -/

theorem expandConcept_not_blacklisted {c : Concept}
    (h : blacklistedConcept c = false) :
    blacklistedConcept (expandConcept c) = false := by
  match hc : c.uri with
  | none =>
    simp only [expandConcept, hc, expandUri]
    simpa [blacklistedConcept, uriStr, hc] using h
  | some u =>
    have hu : uriStr c = u := by simp [uriStr, hc]
    by_cases he : u = ""
    · simp only [expandConcept, hc, expandUri, if_pos he]
      simpa [blacklistedConcept, uriStr, hc] using h
    · by_cases hs : pyStartsWith u "http://" || pyStartsWith u "https://"
      · simp only [expandConcept, hc, expandUri, if_neg he, if_pos hs]
        simpa [blacklistedConcept, uriStr, hc] using h
      · match hq : qnameSplit u with
        | none =>
          simp only [expandConcept, hc, expandUri, if_neg he, if_neg hs, hq]
          simpa [blacklistedConcept, uriStr, hc] using h
        | some (p, l) =>
          match hp : prefixBase p with
          | none =>
            simp only [expandConcept, hc, expandUri, if_neg he, if_neg hs, hq, hp]
            simpa [blacklistedConcept, uriStr, hc] using h
          | some base =>
            simp only [expandConcept, hc, expandUri, if_neg he, if_neg hs, hq, hp]
            have hw := prefixBase_not_w3 hp l
            simp [blacklistedConcept, blacklistPrefixes, uriStr, hw.1, hw.2]

theorem chooseBest_mem {qt : String} {cs : List Concept} {o : Option String} {r : Concept}
    (h : chooseBestConceptWithLLM qt cs o = some r) :
    ∃ c ∈ cs, r = expandConcept c := by
  unfold chooseBestConceptWithLLM at h
  match o with
  | none => simp at h
  | some raw =>
    simp only at h
    split at h
    · exact absurd h (by simp)
    · have hm := List.mem_of_find?_eq_some h
      obtain ⟨c, hcmem, hce⟩ := List.mem_map.mp hm
      exact ⟨c, List.mem_of_mem_take hcmem, hce.symm⟩

theorem head?_map_expand {cs : List Concept} {r : Concept}
    (h : cs.head?.map expandConcept = some r) :
    ∃ c ∈ cs, r = expandConcept c := by
  cases cs with
  | nil => simp at h
  | cons c rest =>
    refine ⟨c, List.mem_cons_self c rest, ?_⟩
    simpa using h.symm

/-- C6: whenever at least one candidate does not come from the
generic-namespace blacklist, `_select_best_concept` never returns a
blacklisted candidate, regardless of the oracle's shortlist answer. -/
theorem select_best_concept_avoids_blacklist
    (queryText : String) (concepts : List Concept) (oracleResponse : Option String)
    (hnb : ∃ c ∈ concepts, blacklistedConcept c = false) :
    ∀ r, selectBestConcept queryText concepts oracleResponse = some r →
      blacklistedConcept r = false := by
  intro r hr
  obtain ⟨c₀, hc₀mem, hc₀⟩ := hnb
  match concepts, hc₀mem with
  | c :: cs, hc₀mem =>
  have hfmem : c₀ ∈ (c :: cs).filter (fun x => !(blacklistedConcept x)) :=
    List.mem_filter.mpr ⟨hc₀mem, by simp [hc₀]⟩
  have hfe : ((c :: cs).filter (fun x => !(blacklistedConcept x))).isEmpty = false := by
    rcases hf : (c :: cs).filter (fun x => !(blacklistedConcept x)) with _ | ⟨a, l⟩
    · rw [hf] at hfmem; simp at hfmem
    · simp
  have hmemf : ∀ x ∈ (c :: cs).filter (fun x => !(blacklistedConcept x)),
      blacklistedConcept x = false := by
    intro x hx
    simpa using (List.mem_filter.mp hx).2
  simp only [selectBestConcept, hfe, Bool.false_eq_true, if_false] at hr
  set fl := (c :: cs).filter (fun x => !(blacklistedConcept x)) with hfl
  by_cases hlen : fl.length = 1
  · rw [if_pos hlen] at hr
    obtain ⟨c', hc'mem, hc'e⟩ := head?_map_expand hr
    exact hc'e ▸ expandConcept_not_blacklisted (hmemf c' hc'mem)
  · rw [if_neg hlen] at hr
    have hmem2 : ∀ x ∈ (if (fl.filter preferredConcept).isEmpty then fl
        else fl.filter preferredConcept), x ∈ fl := by
      intro x hx
      split at hx
      · exact hx
      · exact (List.mem_filter.mp hx).1
    split at hr
    · next choice hch =>
      obtain ⟨c', hc'mem, hc'e⟩ := chooseBest_mem hch
      have h1 : blacklistedConcept c' = false := hmemf c' (hmem2 c' hc'mem)
      have h2 : blacklistedConcept choice = false :=
        hc'e ▸ expandConcept_not_blacklisted h1
      have he : expandConcept choice = r := Option.some.inj hr
      exact he ▸ expandConcept_not_blacklisted h2
    · obtain ⟨c', hc'mem, hc'e⟩ := head?_map_expand hr
      exact hc'e ▸ expandConcept_not_blacklisted (hmemf c' (hmem2 c' hc'mem))

/-- Witness for C6: a blacklisted RDFS candidate ranked first is skipped
in favour of the domain candidate even when the oracle echoes the
blacklisted URI. -/
theorem select_best_concept_avoids_blacklist_witness :
    blacklistedConcept
      ⟨some "http://example.org/hearing/Tinnitus", some "Tinnitus", none⟩ = false :=
  select_best_concept_avoids_blacklist "label"
    [⟨some "http://www.w3.org/2000/01/rdf-schema#label", some "label", none⟩,
     ⟨some "http://example.org/hearing/Tinnitus", some "Tinnitus", none⟩]
    (some "http://www.w3.org/2000/01/rdf-schema#label")
    ⟨⟨some "http://example.org/hearing/Tinnitus", some "Tinnitus", none⟩,
      by decide, by decide⟩
    ⟨some "http://example.org/hearing/Tinnitus", some "Tinnitus", none⟩
    (by decide)

/-! Lemmas about the Graph Accumulator (C3, C4, C5). -/

theorem pyTruthy_some_getD {x : Option String} (h : pyTruthy x = true) :
    x = some (x.getD "") := by
  match x with
  | none => simp [pyTruthy] at h
  | some s => rfl

theorem lookupLast_append_ne (nodes : List GNode) (n : GNode) (u : String)
    (h : ¬ n.id = some u) : lookupLast (nodes ++ [n]) u = lookupLast nodes u := by
  induction nodes with
  | nil => simp [lookupLast, h]
  | cons m rest ih =>
    simp only [List.cons_append, lookupLast, List.append_eq]
    rw [ih]

theorem lookupLast_append_self (nodes : List GNode) (n : GNode) (u : String)
    (h : n.id = some u) : lookupLast (nodes ++ [n]) u = some n := by
  induction nodes with
  | nil => simp [lookupLast, h]
  | cons m rest ih =>
    simp only [List.cons_append, lookupLast, List.append_eq]
    rw [ih]

theorem lookupLast_update_ne (nodes : List GNode) (u v lbl : String) (huv : ¬ v = u) :
    lookupLast (updateLastLabel nodes v lbl) u = lookupLast nodes u := by
  induction nodes with
  | nil => rfl
  | cons m rest ih =>
    by_cases hrest : (lookupLast rest v).isSome
    · simp only [updateLastLabel, if_pos hrest, lookupLast, ih]
    · rw [updateLastLabel, if_neg hrest]
      by_cases hm : m.id = some v
      · rw [if_pos hm]
        show lookupLast ({ m with label := some lbl } :: rest) u = lookupLast (m :: rest) u
        rw [lookupLast, lookupLast]
        have hid : ({ m with label := some lbl } : GNode).id = m.id := rfl
        rw [hid, hm]
        have : ¬ (some v = some u) := by simp [huv]
        simp [this]
      · rw [if_neg hm]

theorem lookupLast_update_self (nodes : List GNode) (u lbl : String) (n : GNode)
    (h : lookupLast nodes u = some n) :
    lookupLast (updateLastLabel nodes u lbl) u = some { n with label := some lbl } := by
  induction nodes with
  | nil => simp [lookupLast] at h
  | cons m rest ih =>
    rw [lookupLast] at h
    by_cases hrest : (lookupLast rest u).isSome
    · obtain ⟨x, hx⟩ := Option.isSome_iff_exists.mp hrest
      rw [hx] at h
      have hxn : x = n := by injection h
      subst hxn
      rw [updateLastLabel, if_pos hrest, lookupLast, ih hx]
    · have hnone : lookupLast rest u = none := Option.not_isSome_iff_eq_none.mp hrest
      rw [hnone] at h
      by_cases hm : m.id = some u
      · rw [if_pos hm] at h
        have hmn : m = n := by injection h
        subst hmn
        rw [updateLastLabel, if_neg hrest, if_pos hm, lookupLast, hnone]
        have hid : ({ m with label := some lbl } : GNode).id = m.id := rfl
        rw [hid, if_pos hm]
      · rw [if_neg hm] at h
        exact absurd h (by simp)

theorem ensureNode_none (nodes : List GNode) (lOpt : Option String) :
    ensureNode nodes none lOpt = nodes := rfl

theorem ensureNode_empty (nodes : List GNode) (v : String) (lOpt : Option String)
    (hv : v = "") : ensureNode nodes (some v) lOpt = nodes := by
  simp only [ensureNode]
  rw [if_pos hv]

theorem ensureNode_absent (nodes : List GNode) (v : String) (lOpt : Option String)
    (hv : ¬ v = "") (hlv : lookupLast nodes v = none) :
    ensureNode nodes (some v) lOpt =
      nodes ++ [⟨some v, some (if pyTruthy lOpt then lOpt.getD "" else inferLabel v),
        some "concept"⟩] := by
  simp only [ensureNode]
  rw [if_neg hv, hlv]

theorem ensureNode_present (nodes : List GNode) (v : String) (lOpt : Option String)
    (m : GNode) (hv : ¬ v = "") (hlv : lookupLast nodes v = some m) :
    ensureNode nodes (some v) lOpt =
      if pyTruthy lOpt && !(pyTruthy m.label) then updateLastLabel nodes v (lOpt.getD "")
      else nodes := by
  simp only [ensureNode]
  rw [if_neg hv, hlv]

theorem ensureNode_preserves_truthy (nodes : List GNode) (vOpt lOpt : Option String)
    (u : String) (n : GNode) (h : lookupLast nodes u = some n)
    (hl : pyTruthy n.label = true) :
    lookupLast (ensureNode nodes vOpt lOpt) u = some n := by
  match vOpt with
  | none => rw [ensureNode_none]; exact h
  | some v =>
    by_cases hv : v = ""
    · rw [ensureNode_empty nodes v lOpt hv]; exact h
    · cases hlv : lookupLast nodes v with
      | none =>
        by_cases hvu : v = u
        · subst hvu; rw [hlv] at h; exact absurd h (by simp)
        · rw [ensureNode_absent nodes v lOpt hv hlv,
            lookupLast_append_ne nodes _ u (by simp [hvu])]
          exact h
      | some m =>
        rw [ensureNode_present nodes v lOpt m hv hlv]
        by_cases hcond : (pyTruthy lOpt && !(pyTruthy m.label)) = true
        · rw [if_pos hcond]
          by_cases hvu : v = u
          · subst hvu
            rw [hlv] at h
            have hmn : m = n := by injection h
            subst hmn
            simp only [Bool.and_eq_true, Bool.not_eq_true'] at hcond
            rw [hcond.2] at hl
            exact absurd hl (by simp)
          · rw [lookupLast_update_ne nodes u v (lOpt.getD "") hvu]
            exact h
        · rw [if_neg hcond]; exact h

theorem ensureNode_lookup_cases (nodes : List GNode) (vOpt lOpt : Option String)
    (u : String) (n : GNode) (h : lookupLast nodes u = some n) :
    lookupLast (ensureNode nodes vOpt lOpt) u = some n ∨
    ∃ s : String, s ≠ "" ∧
      lookupLast (ensureNode nodes vOpt lOpt) u = some { n with label := some s } := by
  match vOpt with
  | none => rw [ensureNode_none]; exact Or.inl h
  | some v =>
    by_cases hv : v = ""
    · rw [ensureNode_empty nodes v lOpt hv]; exact Or.inl h
    · cases hlv : lookupLast nodes v with
      | none =>
        by_cases hvu : v = u
        · subst hvu; rw [hlv] at h; exact absurd h (by simp)
        · rw [ensureNode_absent nodes v lOpt hv hlv]
          exact Or.inl ((lookupLast_append_ne nodes _ u (by simp [hvu])).trans h)
      | some m =>
        rw [ensureNode_present nodes v lOpt m hv hlv]
        by_cases hcond : (pyTruthy lOpt && !(pyTruthy m.label)) = true
        · rw [if_pos hcond]
          by_cases hvu : v = u
          · subst hvu
            rw [hlv] at h
            have hmn : m = n := by injection h
            subst hmn
            have hlt : pyTruthy lOpt = true := by
              simp only [Bool.and_eq_true] at hcond
              exact hcond.1
            refine Or.inr ⟨lOpt.getD "", ?_, ?_⟩
            · intro he
              have hx := pyTruthy_some_getD hlt
              rw [he] at hx
              rw [hx] at hlt
              simp [pyTruthy] at hlt
            · exact lookupLast_update_self nodes v _ m hlv
          · exact Or.inl ((lookupLast_update_ne nodes u v (lOpt.getD "") hvu).trans h)
        · rw [if_neg hcond]; exact Or.inl h

theorem ensureNode_preserves_nodeStable (nodes : List GNode) (vOpt lOpt uo lo : Option String)
    (h : nodeStable nodes uo lo) : nodeStable (ensureNode nodes vOpt lOpt) uo lo := by
  intro u hu hne
  obtain ⟨n, hn, himp⟩ := h u hu hne
  rcases ensureNode_lookup_cases nodes vOpt lOpt u n hn with hc | ⟨s, hs, hc⟩
  · exact ⟨n, hc, himp⟩
  · refine ⟨{ n with label := some s }, hc, fun _ => ?_⟩
    simp [pyTruthy, hs]

theorem ensureNode_establishes (nodes : List GNode) (uriOpt lblOpt : Option String) :
    nodeStable (ensureNode nodes uriOpt lblOpt) uriOpt lblOpt := by
  intro u hu hne
  subst hu
  cases hlv : lookupLast nodes u with
  | none =>
    rw [ensureNode_absent nodes u lblOpt hne hlv]
    refine ⟨_, lookupLast_append_self nodes _ u rfl, fun ht => ?_⟩
    show pyTruthy (some (if pyTruthy lblOpt then lblOpt.getD "" else inferLabel u)) = true
    rw [if_pos ht, ← pyTruthy_some_getD ht]
    exact ht
  | some m =>
    rw [ensureNode_present nodes u lblOpt m hne hlv]
    by_cases hcond : (pyTruthy lblOpt && !(pyTruthy m.label)) = true
    · rw [if_pos hcond]
      have hlt : pyTruthy lblOpt = true := by
        simp only [Bool.and_eq_true] at hcond
        exact hcond.1
      refine ⟨_, lookupLast_update_self nodes u _ m hlv, fun _ => ?_⟩
      show pyTruthy (some (lblOpt.getD "")) = true
      rw [← pyTruthy_some_getD hlt]
      exact hlt
    · rw [if_neg hcond]
      refine ⟨m, hlv, fun ht => ?_⟩
      cases hb : pyTruthy m.label with
      | true => rfl
      | false =>
        rw [Bool.and_eq_true, Bool.not_eq_true'] at hcond
        exact absurd ⟨ht, hb⟩ hcond

theorem ensureNode_noop (nodes : List GNode) (uriOpt lblOpt : Option String)
    (h : nodeStable nodes uriOpt lblOpt) : ensureNode nodes uriOpt lblOpt = nodes := by
  match uriOpt with
  | none => rfl
  | some u =>
    by_cases hv : u = ""
    · exact ensureNode_empty nodes u lblOpt hv
    · obtain ⟨n, hn, himp⟩ := h u rfl hv
      rw [ensureNode_present nodes u lblOpt n hv hn]
      have hcond : (pyTruthy lblOpt && !(pyTruthy n.label)) = false := by
        cases ht : pyTruthy lblOpt
        · simp
        · simp [himp ht]
      rw [hcond]
      simp

theorem addLink_nodes (st : MergeState) (s t r : String) :
    (addLink st s t r).nodes = st.nodes := by
  simp only [addLink]
  split <;> rfl

theorem addLink_links (st : MergeState) (s t r : String) :
    (addLink st s t r).links = st.links ∨
    ((some s, some t, some r) : LinkKey) ∉ st.lkeys ∧
      (addLink st s t r).links = st.links ++ [⟨some s, some t, some r⟩] ∧
      (addLink st s t r).lkeys = st.lkeys ++ [(some s, some t, some r)] := by
  simp only [addLink]
  split
  · exact Or.inl rfl
  · next hmem => exact Or.inr ⟨hmem, rfl, rfl⟩

theorem addLink_lkeys_mono (st : MergeState) (s t r : String) {k : LinkKey}
    (h : k ∈ st.lkeys) : k ∈ (addLink st s t r).lkeys := by
  simp only [addLink]
  split
  · exact h
  · exact List.mem_append_left _ h

theorem addLink_key_mem (st : MergeState) (s t r : String) :
    ((some s, some t, some r) : LinkKey) ∈ (addLink st s t r).lkeys := by
  simp only [addLink]
  split
  · next hmem => exact hmem
  · exact List.mem_append_right _ (List.mem_singleton.mpr rfl)

theorem addLink_noop (st : MergeState) (s t r : String)
    (h : ((some s, some t, some r) : LinkKey) ∈ st.lkeys) : addLink st s t r = st := by
  simp only [addLink]
  rw [if_pos h]

theorem processRow_nodes (ctx : List String) (st : MergeState) (row : Row) :
    (processRow ctx st row).nodes = rowEnsureNodes ctx st.nodes row := by
  simp only [processRow, rowEnsureNodes]
  by_cases hint : pyTruthy (rowIntermediate row) = true
  · simp only [if_pos hint]
    by_cases h1 : (pyTruthy (rowSource row ctx) && pyTruthy (rowRel1 row)) = true
    · by_cases h2 : (pyTruthy (rowTarget row ctx) && pyTruthy (rowRel2 row)) = true
      · simp only [if_pos h1, if_pos h2, addLink_nodes]
      · simp only [if_pos h1, if_neg h2, addLink_nodes]
    · by_cases h2 : (pyTruthy (rowTarget row ctx) && pyTruthy (rowRel2 row)) = true
      · simp only [if_neg h1, if_pos h2, addLink_nodes]
      · simp only [if_neg h1, if_neg h2]
  · simp only [if_neg hint]
    by_cases h3 : (pyTruthy (rowSource row ctx) && pyTruthy (rowTarget row ctx) &&
        pyTruthy (rowRelation row)) = true
    · simp only [if_pos h3, addLink_nodes]
    · simp only [if_neg h3]

theorem processRow_lkeys_mono (ctx : List String) (st : MergeState) (row : Row) {k : LinkKey}
    (h : k ∈ st.lkeys) : k ∈ (processRow ctx st row).lkeys := by
  simp only [processRow]
  by_cases hint : pyTruthy (rowIntermediate row) = true
  · simp only [if_pos hint]
    by_cases h1 : (pyTruthy (rowSource row ctx) && pyTruthy (rowRel1 row)) = true
    · by_cases h2 : (pyTruthy (rowTarget row ctx) && pyTruthy (rowRel2 row)) = true
      · simp only [if_pos h1, if_pos h2]
        exact addLink_lkeys_mono _ _ _ _ (addLink_lkeys_mono _ _ _ _ h)
      · simp only [if_pos h1, if_neg h2]
        exact addLink_lkeys_mono _ _ _ _ h
    · by_cases h2 : (pyTruthy (rowTarget row ctx) && pyTruthy (rowRel2 row)) = true
      · simp only [if_neg h1, if_pos h2]
        exact addLink_lkeys_mono _ _ _ _ h
      · simp only [if_neg h1, if_neg h2]
        exact h
  · simp only [if_neg hint]
    by_cases h3 : (pyTruthy (rowSource row ctx) && pyTruthy (rowTarget row ctx) &&
        pyTruthy (rowRelation row)) = true
    · simp only [if_pos h3]
      exact addLink_lkeys_mono _ _ _ _ h
    · simp only [if_neg h3]
      exact h

theorem rowEnsureNodes_preserves_truthy (ctx : List String) (nodes : List GNode) (row : Row)
    (u : String) (n : GNode) (h : lookupLast nodes u = some n)
    (hl : pyTruthy n.label = true) :
    lookupLast (rowEnsureNodes ctx nodes row) u = some n := by
  simp only [rowEnsureNodes]
  have h1 := ensureNode_preserves_truthy nodes (rowSource row ctx)
    (rowGet row "sourceLabel") u n h hl
  have h2 := ensureNode_preserves_truthy _ (rowTarget row ctx)
    (rowGet row "targetLabel") u n h1 hl
  split
  · exact ensureNode_preserves_truthy _ (rowIntermediate row)
      (rowIntermediateLabel row) u n h2 hl
  · exact h2

theorem rowEnsureNodes_preserves_nodeStable (ctx : List String) (nodes : List GNode)
    (row : Row) (uo lo : Option String) (h : nodeStable nodes uo lo) :
    nodeStable (rowEnsureNodes ctx nodes row) uo lo := by
  simp only [rowEnsureNodes]
  have h1 := ensureNode_preserves_nodeStable nodes (rowSource row ctx)
    (rowGet row "sourceLabel") uo lo h
  have h2 := ensureNode_preserves_nodeStable _ (rowTarget row ctx)
    (rowGet row "targetLabel") uo lo h1
  split
  · exact ensureNode_preserves_nodeStable _ (rowIntermediate row)
      (rowIntermediateLabel row) uo lo h2
  · exact h2

theorem rowEnsureNodes_stable_source (ctx : List String) (nodes : List GNode) (row : Row) :
    nodeStable (rowEnsureNodes ctx nodes row) (rowSource row ctx)
      (rowGet row "sourceLabel") := by
  simp only [rowEnsureNodes]
  have h1 := ensureNode_establishes nodes (rowSource row ctx) (rowGet row "sourceLabel")
  have h2 := ensureNode_preserves_nodeStable _ (rowTarget row ctx)
    (rowGet row "targetLabel") _ _ h1
  split
  · exact ensureNode_preserves_nodeStable _ (rowIntermediate row)
      (rowIntermediateLabel row) _ _ h2
  · exact h2

theorem rowEnsureNodes_stable_target (ctx : List String) (nodes : List GNode) (row : Row) :
    nodeStable (rowEnsureNodes ctx nodes row) (rowTarget row ctx)
      (rowGet row "targetLabel") := by
  simp only [rowEnsureNodes]
  have h2 := ensureNode_establishes
    (ensureNode nodes (rowSource row ctx) (rowGet row "sourceLabel"))
    (rowTarget row ctx) (rowGet row "targetLabel")
  split
  · exact ensureNode_preserves_nodeStable _ (rowIntermediate row)
      (rowIntermediateLabel row) _ _ h2
  · exact h2

theorem rowEnsureNodes_stable_inter (ctx : List String) (nodes : List GNode) (row : Row)
    (hint : pyTruthy (rowIntermediate row) = true) :
    nodeStable (rowEnsureNodes ctx nodes row) (rowIntermediate row)
      (rowIntermediateLabel row) := by
  simp only [rowEnsureNodes]
  rw [if_pos hint]
  exact ensureNode_establishes _ (rowIntermediate row) (rowIntermediateLabel row)

theorem rowAbsorbed_mono {ctx : List String} {nodes : List GNode} {ks1 ks2 : List LinkKey}
    {row : Row} (hks : ∀ k : LinkKey, k ∈ ks1 → k ∈ ks2)
    (h : rowAbsorbed ctx nodes ks1 row) : rowAbsorbed ctx nodes ks2 row := by
  obtain ⟨hs, ht, hi, hd⟩ := h
  refine ⟨hs, ht, fun hint => ?_, fun hif hsrc htgt hrel => hks _ (hd hif hsrc htgt hrel)⟩
  obtain ⟨hsi, hk1, hk2⟩ := hi hint
  exact ⟨hsi, fun a b => hks _ (hk1 a b), fun a b => hks _ (hk2 a b)⟩

theorem processRow_absorbs (ctx : List String) (st : MergeState) (row : Row) :
    rowAbsorbed ctx (processRow ctx st row).nodes (processRow ctx st row).lkeys row := by
  refine ⟨?_, ?_, fun hint => ⟨?_, fun hsrc hr1 => ?_, fun htgt hr2 => ?_⟩,
    fun hintf hsrc htgt hrel => ?_⟩
  · rw [processRow_nodes]; exact rowEnsureNodes_stable_source ctx st.nodes row
  · rw [processRow_nodes]; exact rowEnsureNodes_stable_target ctx st.nodes row
  · rw [processRow_nodes]; exact rowEnsureNodes_stable_inter ctx st.nodes row hint
  · -- first hop key is inserted
    have h1 : (pyTruthy (rowSource row ctx) && pyTruthy (rowRel1 row)) = true := by
      simp [hsrc, hr1]
    rw [pyTruthy_some_getD hsrc, pyTruthy_some_getD hint, pyTruthy_some_getD hr1]
    simp only [processRow, if_pos hint, if_pos h1]
    by_cases h2 : (pyTruthy (rowTarget row ctx) && pyTruthy (rowRel2 row)) = true
    · simp only [if_pos h2]
      exact addLink_lkeys_mono _ _ _ _ (addLink_key_mem _ _ _ _)
    · simp only [if_neg h2]
      exact addLink_key_mem _ _ _ _
  · -- second hop key is inserted
    have h2 : (pyTruthy (rowTarget row ctx) && pyTruthy (rowRel2 row)) = true := by
      simp [htgt, hr2]
    rw [pyTruthy_some_getD hint, pyTruthy_some_getD htgt, pyTruthy_some_getD hr2]
    simp only [processRow, if_pos hint, if_pos h2]
    by_cases h1 : (pyTruthy (rowSource row ctx) && pyTruthy (rowRel1 row)) = true
    · simp only [if_pos h1]
      exact addLink_key_mem _ _ _ _
    · simp only [if_neg h1]
      exact addLink_key_mem _ _ _ _
  · -- direct key is inserted
    have hwf : pyTruthy (rowIntermediate row) = true ↔ False := by simp [hintf]
    have hint' : ¬ pyTruthy (rowIntermediate row) = true := by simp [hintf]
    have h3 : (pyTruthy (rowSource row ctx) && pyTruthy (rowTarget row ctx) &&
        pyTruthy (rowRelation row)) = true := by
      simp [hsrc, htgt, hrel]
    rw [pyTruthy_some_getD hsrc, pyTruthy_some_getD htgt, pyTruthy_some_getD hrel]
    simp only [processRow, if_neg hint', if_pos h3]
    exact addLink_key_mem _ _ _ _

theorem processRow_noop (ctx : List String) (st : MergeState) (row : Row)
    (h : rowAbsorbed ctx st.nodes st.lkeys row) : processRow ctx st row = st := by
  obtain ⟨hs, ht, hi, hd⟩ := h
  simp only [processRow]
  rw [ensureNode_noop st.nodes _ _ hs]
  rw [ensureNode_noop st.nodes _ _ ht]
  by_cases hint : pyTruthy (rowIntermediate row) = true
  · obtain ⟨hsi, hk1, hk2⟩ := hi hint
    rw [if_pos hint, ensureNode_noop st.nodes _ _ hsi]
    have hst1 : (⟨st.nodes, st.links, st.lkeys⟩ : MergeState) = st := rfl
    rw [hst1]
    by_cases h1 : (pyTruthy (rowSource row ctx) && pyTruthy (rowRel1 row)) = true
    · have hsrc : pyTruthy (rowSource row ctx) = true := by
        simp only [Bool.and_eq_true] at h1; exact h1.1
      have hr1 : pyTruthy (rowRel1 row) = true := by
        simp only [Bool.and_eq_true] at h1; exact h1.2
      have hadd1 : addLink st ((rowSource row ctx).getD "") ((rowIntermediate row).getD "")
          ((rowRel1 row).getD "") = st := by
        apply addLink_noop
        have hk := hk1 hsrc hr1
        rwa [pyTruthy_some_getD hsrc, pyTruthy_some_getD hint, pyTruthy_some_getD hr1] at hk
      rw [if_pos h1, hadd1]
      by_cases h2 : (pyTruthy (rowTarget row ctx) && pyTruthy (rowRel2 row)) = true
      · have htgt : pyTruthy (rowTarget row ctx) = true := by
          simp only [Bool.and_eq_true] at h2; exact h2.1
        have hr2 : pyTruthy (rowRel2 row) = true := by
          simp only [Bool.and_eq_true] at h2; exact h2.2
        rw [if_pos h2]
        apply addLink_noop
        have hk := hk2 htgt hr2
        rwa [pyTruthy_some_getD hint, pyTruthy_some_getD htgt, pyTruthy_some_getD hr2] at hk
      · rw [if_neg h2]
    · rw [if_neg h1]
      by_cases h2 : (pyTruthy (rowTarget row ctx) && pyTruthy (rowRel2 row)) = true
      · have htgt : pyTruthy (rowTarget row ctx) = true := by
          simp only [Bool.and_eq_true] at h2; exact h2.1
        have hr2 : pyTruthy (rowRel2 row) = true := by
          simp only [Bool.and_eq_true] at h2; exact h2.2
        rw [if_pos h2]
        apply addLink_noop
        have hk := hk2 htgt hr2
        rwa [pyTruthy_some_getD hint, pyTruthy_some_getD htgt, pyTruthy_some_getD hr2] at hk
      · rw [if_neg h2]
  · rw [if_neg hint]
    have hintf : pyTruthy (rowIntermediate row) = false := by
      cases hb : pyTruthy (rowIntermediate row)
      · rfl
      · exact absurd hb hint
    by_cases h3 : (pyTruthy (rowSource row ctx) && pyTruthy (rowTarget row ctx) &&
        pyTruthy (rowRelation row)) = true
    · have hsrc : pyTruthy (rowSource row ctx) = true := by
        simp only [Bool.and_eq_true] at h3; exact h3.1.1
      have htgt : pyTruthy (rowTarget row ctx) = true := by
        simp only [Bool.and_eq_true] at h3; exact h3.1.2
      have hrel : pyTruthy (rowRelation row) = true := by
        simp only [Bool.and_eq_true] at h3; exact h3.2
      rw [if_pos h3]
      apply addLink_noop
      have hk := hd hintf hsrc htgt hrel
      rwa [pyTruthy_some_getD hsrc, pyTruthy_some_getD htgt, pyTruthy_some_getD hrel] at hk
    · rw [if_neg h3]

theorem processRow_preserves_absorbed (ctx : List String) (st : MergeState) (row r : Row)
    (h : rowAbsorbed ctx st.nodes st.lkeys r) :
    rowAbsorbed ctx (processRow ctx st row).nodes (processRow ctx st row).lkeys r := by
  obtain ⟨hs, ht, hi, hd⟩ := h
  refine ⟨?_, ?_, fun hint => ?_, fun hif a b c => ?_⟩
  · rw [processRow_nodes]; exact rowEnsureNodes_preserves_nodeStable ctx st.nodes row _ _ hs
  · rw [processRow_nodes]; exact rowEnsureNodes_preserves_nodeStable ctx st.nodes row _ _ ht
  · obtain ⟨hsi, hk1, hk2⟩ := hi hint
    refine ⟨?_, fun a b => ?_, fun a b => ?_⟩
    · rw [processRow_nodes]
      exact rowEnsureNodes_preserves_nodeStable ctx st.nodes row _ _ hsi
    · exact processRow_lkeys_mono ctx st row (hk1 a b)
    · exact processRow_lkeys_mono ctx st row (hk2 a b)
  · exact processRow_lkeys_mono ctx st row (hd hif a b c)

theorem foldl_processRow_preserves_absorbed (ctx : List String) (rows : List Row) :
    ∀ (st : MergeState) (r : Row), rowAbsorbed ctx st.nodes st.lkeys r →
      rowAbsorbed ctx (rows.foldl (processRow ctx) st).nodes
        (rows.foldl (processRow ctx) st).lkeys r := by
  induction rows with
  | nil => intro st r h; exact h
  | cons a rest ih =>
    intro st r h
    exact ih (processRow ctx st a) r (processRow_preserves_absorbed ctx st a r h)

theorem foldl_processRow_absorbs_all (ctx : List String) (rows : List Row) :
    ∀ (st : MergeState) (r : Row), r ∈ rows →
      rowAbsorbed ctx (rows.foldl (processRow ctx) st).nodes
        (rows.foldl (processRow ctx) st).lkeys r := by
  induction rows with
  | nil => intro st r h; exact absurd h (List.not_mem_nil r)
  | cons a rest ih =>
    intro st r h
    rcases List.mem_cons.mp h with h | h
    · subst h
      exact foldl_processRow_preserves_absorbed ctx rest (processRow ctx st r) r
        (processRow_absorbs ctx st r)
    · exact ih (processRow ctx st a) r h

theorem foldl_processRow_noop (ctx : List String) (rows : List Row) :
    ∀ st : MergeState, (∀ r ∈ rows, rowAbsorbed ctx st.nodes st.lkeys r) →
      rows.foldl (processRow ctx) st = st := by
  induction rows with
  | nil => intro st _; rfl
  | cons a rest ih =>
    intro st h
    have ha : processRow ctx st a = st := processRow_noop ctx st a (h a (List.mem_cons_self a rest))
    show rest.foldl (processRow ctx) (processRow ctx st a) = st
    rw [ha]
    exact ih st (fun r hr => h r (List.mem_cons_of_mem a hr))

theorem foldl_processRow_preserves_truthy (ctx : List String) (rows : List Row) :
    ∀ (st : MergeState) (u : String) (n : GNode), lookupLast st.nodes u = some n →
      pyTruthy n.label = true →
      lookupLast (rows.foldl (processRow ctx) st).nodes u = some n := by
  induction rows with
  | nil => intro st u n h _; exact h
  | cons a rest ih =>
    intro st u n h hl
    refine ih (processRow ctx st a) u n ?_ hl
    rw [processRow_nodes]
    exact rowEnsureNodes_preserves_truthy ctx st.nodes a u n h hl

theorem addLink_preserves_aligned (st : MergeState) (s t r : String)
    (h : keysAligned st) : keysAligned (addLink st s t r) := by
  intro k
  simp only [addLink]
  split
  · exact h k
  · simp only [List.mem_append, List.map_append, List.mem_singleton, List.map_cons,
      List.map_nil, linkKey]
    constructor
    · rintro (hk | hk)
      · exact Or.inl ((h k).mp hk)
      · exact Or.inr (by simp [hk])
    · rintro (hk | hk)
      · exact Or.inl ((h k).mpr hk)
      · exact Or.inr (by simpa using hk)

theorem addLink_preserves_distinct (st : MergeState) (s t r : String)
    (ha : keysAligned st) (h : (st.links.map linkKey).Nodup) :
    ((addLink st s t r).links.map linkKey).Nodup := by
  simp only [addLink]
  split
  · exact h
  · next hmem =>
    have hnot : ((some s, some t, some r) : LinkKey) ∉ st.links.map linkKey :=
      fun hc => hmem ((ha _).mpr hc)
    simp only [List.map_append, List.map_cons, List.map_nil, linkKey]
    simp [List.nodup_append, h, hnot]

theorem processRow_preserves_aligned (ctx : List String) (st : MergeState) (row : Row)
    (h : keysAligned st) : keysAligned (processRow ctx st row) := by
  simp only [processRow]
  have hst1n : keysAligned (⟨rowEnsureNodes ctx st.nodes row, st.links, st.lkeys⟩ : MergeState) := h
  by_cases hint : pyTruthy (rowIntermediate row) = true
  · simp only [if_pos hint]
    by_cases h1 : (pyTruthy (rowSource row ctx) && pyTruthy (rowRel1 row)) = true
    · by_cases h2 : (pyTruthy (rowTarget row ctx) && pyTruthy (rowRel2 row)) = true
      · simp only [if_pos h1, if_pos h2]
        exact addLink_preserves_aligned _ _ _ _ (addLink_preserves_aligned _ _ _ _ h)
      · simp only [if_pos h1, if_neg h2]
        exact addLink_preserves_aligned _ _ _ _ h
    · by_cases h2 : (pyTruthy (rowTarget row ctx) && pyTruthy (rowRel2 row)) = true
      · simp only [if_neg h1, if_pos h2]
        exact addLink_preserves_aligned _ _ _ _ h
      · simp only [if_neg h1, if_neg h2]
        exact h
  · simp only [if_neg hint]
    by_cases h3 : (pyTruthy (rowSource row ctx) && pyTruthy (rowTarget row ctx) &&
        pyTruthy (rowRelation row)) = true
    · simp only [if_pos h3]
      exact addLink_preserves_aligned _ _ _ _ h
    · simp only [if_neg h3]
      exact h

theorem processRow_preserves_distinct (ctx : List String) (st : MergeState) (row : Row)
    (ha : keysAligned st) (h : (st.links.map linkKey).Nodup) :
    ((processRow ctx st row).links.map linkKey).Nodup := by
  simp only [processRow]
  by_cases hint : pyTruthy (rowIntermediate row) = true
  · simp only [if_pos hint]
    by_cases h1 : (pyTruthy (rowSource row ctx) && pyTruthy (rowRel1 row)) = true
    · by_cases h2 : (pyTruthy (rowTarget row ctx) && pyTruthy (rowRel2 row)) = true
      · simp only [if_pos h1, if_pos h2]
        exact addLink_preserves_distinct _ _ _ _
          (addLink_preserves_aligned _ _ _ _ ha)
          (addLink_preserves_distinct _ _ _ _ ha h)
      · simp only [if_pos h1, if_neg h2]
        exact addLink_preserves_distinct _ _ _ _ ha h
    · by_cases h2 : (pyTruthy (rowTarget row ctx) && pyTruthy (rowRel2 row)) = true
      · simp only [if_neg h1, if_pos h2]
        exact addLink_preserves_distinct _ _ _ _ ha h
      · simp only [if_neg h1, if_neg h2]
        exact h
  · simp only [if_neg hint]
    by_cases h3 : (pyTruthy (rowSource row ctx) && pyTruthy (rowTarget row ctx) &&
        pyTruthy (rowRelation row)) = true
    · simp only [if_pos h3]
      exact addLink_preserves_distinct _ _ _ _ ha h
    · simp only [if_neg h3]
      exact h

theorem foldl_processRow_preserves_aligned_distinct (ctx : List String) (rows : List Row) :
    ∀ st : MergeState, keysAligned st → (st.links.map linkKey).Nodup →
      keysAligned (rows.foldl (processRow ctx) st) ∧
      ((rows.foldl (processRow ctx) st).links.map linkKey).Nodup := by
  induction rows with
  | nil => intro st ha h; exact ⟨ha, h⟩
  | cons a rest ih =>
    intro st ha h
    exact ih (processRow ctx st a) (processRow_preserves_aligned ctx st a ha)
      (processRow_preserves_distinct ctx st a ha h)

theorem foldl_processRow_preserves_aligned (ctx : List String) (rows : List Row) :
    ∀ st : MergeState, keysAligned st → keysAligned (rows.foldl (processRow ctx) st) := by
  induction rows with
  | nil => intro st ha; exact ha
  | cons a rest ih =>
    intro st ha
    exact ih (processRow ctx st a) (processRow_preserves_aligned ctx st a ha)

/-! C3 -/

/-- C3: `_merge_graph_results` is idempotent — for every list of tabular
rows, execution context and starting results structure, merging the same
row set twice in succession yields exactly the same node list and link
list as merging it once. -/
theorem merge_graph_results_idempotent (sid : String) (ctx : List String)
    (res : GraphResults) (rows : List Row) :
    mergeGraphResults sid ctx (mergeGraphResults sid ctx res rows) rows =
      mergeGraphResults sid ctx res rows := by
  by_cases hrows : rows.isEmpty = true
  · simp [mergeGraphResults, hrows]
  · simp only [mergeGraphResults, if_neg hrows]
    set stF := rows.foldl (processRow ctx) ⟨res.nodes, res.links, res.links.map linkKey⟩
      with hstF
    have hal0 : keysAligned ⟨res.nodes, res.links, res.links.map linkKey⟩ :=
      fun k => Iff.rfl
    have halF : keysAligned stF := foldl_processRow_preserves_aligned ctx rows _ hal0
    have habs : ∀ r ∈ rows, rowAbsorbed ctx stF.nodes (stF.links.map linkKey) r := by
      intro r hr
      exact rowAbsorbed_mono (fun k hk => (halF k).mp hk)
        (foldl_processRow_absorbs_all ctx rows _ r hr)
    have hnoop : rows.foldl (processRow ctx)
        ⟨stF.nodes, stF.links, stF.links.map linkKey⟩ =
        ⟨stF.nodes, stF.links, stF.links.map linkKey⟩ :=
      foldl_processRow_noop ctx rows _ (fun r hr => habs r hr)
    rw [hnoop]

/-! C4 -/

theorem mergeGraphResults_preserves_distinct (sid : String) (ctx : List String)
    (res : GraphResults) (rows : List Row) (h : keysDistinct res.links) :
    keysDistinct (mergeGraphResults sid ctx res rows).links := by
  by_cases hrows : rows.isEmpty = true
  · simpa [mergeGraphResults, hrows] using h
  · simp only [mergeGraphResults, if_neg hrows]
    have hal0 : keysAligned ⟨res.nodes, res.links, res.links.map linkKey⟩ :=
      fun k => Iff.rfl
    exact (foldl_processRow_preserves_aligned_distinct ctx rows
      ⟨res.nodes, res.links, res.links.map linkKey⟩ hal0 h).2

theorem mergeGraphResults_preserves_truthy (sid : String) (ctx : List String)
    (res : GraphResults) (rows : List Row) (u : String) (n : GNode)
    (h : lookupLast res.nodes u = some n) (hl : pyTruthy n.label = true) :
    lookupLast (mergeGraphResults sid ctx res rows).nodes u = some n := by
  by_cases hrows : rows.isEmpty = true
  · simpa [mergeGraphResults, hrows] using h
  · simp only [mergeGraphResults, if_neg hrows]
    exact foldl_processRow_preserves_truthy ctx rows
      ⟨res.nodes, res.links, res.links.map linkKey⟩ u n h hl

/-- C4: over any sequence of merge calls, distinct link keys remain
distinct (a duplicate key never produces a second link entry) and a node
whose label is already non-empty is returned unchanged (never overwritten
by an empty label); in particular, merging the two identical rows
`(source=A, relation=r1, target=B)` into an empty accumulator leaves
exactly one link with key (A, B, r1). -/
theorem merge_graph_results_invariants :
    (∀ (calls : List (String × List String × List Row)) (res : GraphResults),
      keysDistinct res.links →
      keysDistinct (mergeSeq calls res).links ∧
      (∀ (u : String) (n : GNode), lookupLast res.nodes u = some n →
        pyTruthy n.label = true → lookupLast (mergeSeq calls res).nodes u = some n)) ∧
    (mergeGraphResults "scenario_1_neighbourhood" [] ⟨[], []⟩
      [[("source", "A"), ("relation", "r1"), ("target", "B")],
       [("source", "A"), ("relation", "r1"), ("target", "B")]]).links =
      [⟨some "A", some "B", some "r1"⟩] := by
  constructor
  · intro calls
    induction calls with
    | nil => exact fun res h => ⟨h, fun u n hn _ => hn⟩
    | cons c rest ih =>
      intro res h
      have hd := mergeGraphResults_preserves_distinct c.1 c.2.1 res c.2.2 h
      obtain ⟨h1, h2⟩ := ih (mergeGraphResults c.1 c.2.1 res c.2.2) hd
      refine ⟨h1, fun u n hn hl => ?_⟩
      exact h2 u n (mergeGraphResults_preserves_truthy c.1 c.2.1 res c.2.2 u n hn hl) hl
  · decide

/-- Witness for C4 at a concrete merge sequence. -/
theorem merge_graph_results_invariants_witness :
    keysDistinct (mergeSeq
      [("scenario_1_neighbourhood", ["http://example.org/u"],
        [[("source", "A"), ("relation", "r"), ("target", "B")],
         [("source", "A"), ("relation", "r"), ("target", "B")]])]
      ⟨[], []⟩).links :=
  (merge_graph_results_invariants.1
    [("scenario_1_neighbourhood", ["http://example.org/u"],
      [[("source", "A"), ("relation", "r"), ("target", "B")],
       [("source", "A"), ("relation", "r"), ("target", "B")]])]
    ⟨[], []⟩ (by simp [keysDistinct])).1

/-! C5 -/

/-- C5 counterexample: a row shaped exactly like the rows the repo's own
multi-hop template produces for a three-hop path (columns `intermediate1`,
`intermediate2`, `relation1..3`) yields NO links at all — the merge's
intermediate alias chain only recognizes
`intermediate`/`inter1`/`intermediateNode`, and the direct-link branch
finds no `relation`/`predicate`/`p` column — instead of the
one-link-per-hop the claim requires. -/
theorem merge_three_hop_row_produces_no_links :
    (mergeGraphResults "scenario_2_multihop" [] ⟨[], []⟩
      [[("source", "A"), ("relation1", "r1"), ("intermediate1", "I1"),
        ("relation2", "r2"), ("intermediate2", "I2"), ("relation3", "r3"),
        ("target", "B")]]).links = [] := by decide

/-- C5 (amended): for a row whose intermediate column uses one of the
recognized aliases (`intermediate`/`inter1`/`intermediateNode`) and whose
endpoints and hop relations are truthy, the merge synthesizes exactly one
link per hop of the two-hop path — source→intermediate with the
relation1/r1 alias and intermediate→target with the
relation2/r2/relation3/r3 alias — and no direct source→target link;
rows carrying their intermediates only in the template's
`intermediate1`/`intermediate2` columns produce no links at all. -/
theorem merge_two_hop_row_one_link_per_hop (sid : String) (ctx : List String) (row : Row)
    (hint : pyTruthy (rowIntermediate row) = true)
    (hsrc : pyTruthy (rowSource row ctx) = true)
    (htgt : pyTruthy (rowTarget row ctx) = true)
    (hr1 : pyTruthy (rowRel1 row) = true)
    (hr2 : pyTruthy (rowRel2 row) = true)
    (hne : ((rowSource row ctx, rowIntermediate row, rowRel1 row) : LinkKey) ≠
      (rowIntermediate row, rowTarget row ctx, rowRel2 row)) :
    (mergeGraphResults sid ctx ⟨[], []⟩ [row]).links =
      [⟨rowSource row ctx, rowIntermediate row, rowRel1 row⟩,
       ⟨rowIntermediate row, rowTarget row ctx, rowRel2 row⟩] := by
  obtain ⟨su, hsu⟩ : ∃ s, rowSource row ctx = some s := ⟨_, pyTruthy_some_getD hsrc⟩
  obtain ⟨iu, hiu⟩ : ∃ s, rowIntermediate row = some s := ⟨_, pyTruthy_some_getD hint⟩
  obtain ⟨tu, htu⟩ : ∃ s, rowTarget row ctx = some s := ⟨_, pyTruthy_some_getD htgt⟩
  obtain ⟨au, hau⟩ : ∃ s, rowRel1 row = some s := ⟨_, pyTruthy_some_getD hr1⟩
  obtain ⟨bu, hbu⟩ : ∃ s, rowRel2 row = some s := ⟨_, pyTruthy_some_getD hr2⟩
  have hempty : ¬ ([row] : List Row).isEmpty = true := by simp
  simp only [mergeGraphResults, if_neg hempty, List.foldl_cons, List.foldl_nil,
    List.map_nil]
  have h1 : (pyTruthy (rowSource row ctx) && pyTruthy (rowRel1 row)) = true := by
    simp [hsrc, hr1]
  have h2 : (pyTruthy (rowTarget row ctx) && pyTruthy (rowRel2 row)) = true := by
    simp [htgt, hr2]
  simp only [processRow, if_pos hint, if_pos h1, if_pos h2]
  rw [hsu, hiu, htu, hau, hbu] at hne ⊢
  have hkne : ((some iu, some tu, some bu) : LinkKey) ≠ (some su, some iu, some au) :=
    fun hEq => hne hEq.symm
  simp [addLink, hkne]

/-- Witness for C5's amended theorem at a concrete two-hop row (the shape
produced by `_build_fallback_sparql` for the multi-hop scenario). -/
theorem merge_two_hop_row_one_link_per_hop_witness :
    (mergeGraphResults "scenario_2_multihop" [] ⟨[], []⟩
      [[("source", "A"), ("relation1", "r1"), ("intermediate", "I"),
        ("relation2", "r2"), ("target", "B")]]).links =
      [⟨some "A", some "I", some "r1"⟩, ⟨some "I", some "B", some "r2"⟩] := by
  have h := merge_two_hop_row_one_link_per_hop "scenario_2_multihop" []
    [("source", "A"), ("relation1", "r1"), ("intermediate", "I"),
     ("relation2", "r2"), ("target", "B")]
    (by decide) (by decide) (by decide) (by decide) (by decide) (by decide)
  simpa using h

end Grape
